import Mathlib

/-! Shallow embedding of the UnSHACLed task-scheduler core
(`src/entities/model.ts`, `src/entities/taskInstruction.ts`,
`src/persistence/fileDAO.ts`) together with the parts of the scheduler
interface those files use.

Conventions of the embedding:

* `ModelComponent` (a TypeScript enum) is embedded as `Nat`.
* Component values are opaque to the scheduler; they are a type
  parameter `V`.  A JavaScript value may be `undefined`, so a stored
  value is an `Option V` and `getComponent` of an absent key yields
  `none` (JavaScript `undefined`).
* `typescript-collections` `Dictionary` keys instructions by their
  `toString`, which is determined by `task.index`; the dictionaries are
  embedded as association lists keyed by that `Nat` index, and
  `Collections.Set` as duplicate-free insertion lists.
* Mutation of an object becomes a function returning the updated
  object.  A method that mutates both `this` and an argument returns
  the pair of updated objects, in the order `(this, argument)`.
-/

abbrev ModelComponent : Type := Nat

/-- Embedding of `Collections.Dictionary.getValue` for a dictionary embedded as an
association list: the value at the first matching key, if any. -/
def dictGet {α : Type} (d : List (Nat × α)) (k : Nat) : Option α :=
  (d.find? (fun p => p.1 = k)).map (fun p => p.2)

/-- Embedding of `Collections.Dictionary.setValue`: overwrite the value at the first
entry for `k` if the key is present, otherwise append a fresh entry. -/
def dictSet {α : Type} : List (Nat × α) → Nat → α → List (Nat × α)
  | [], k, v => [(k, v)]
  | p :: rest, k, v =>
      if p.1 = k then (k, v) :: rest else p :: dictSet rest k v

/-- Embedding of `Collections.Set.add`: insert an element unless already present. -/
def setAdd {α : Type} [DecidableEq α] (s : List α) (a : α) : List α :=
  if a ∈ s then s else s ++ [a]

/-- Modelled from the spec: `modelData.ts` is not among the provided
sources.  §3/§4.1 of the spec describe the Data Store as a mapping from
component key to component value together with a change buffer of the
keys written since the buffer was last drained. -/
structure ModelData (V : Type) where
  store : List (Nat × Option V)
  changeBuffer : List ModelComponent
deriving Repr

/-- Modelled from the spec: `get(key) -> value-or-absent`.  In the
TypeScript sources a missing key reads as `undefined`, embedded as
`none`. -/
def ModelData.getComponent {V : Type} (d : ModelData V) (c : ModelComponent) :
    Option V :=
  (dictGet d.store c).getD none

/-- Modelled from the spec: `set(key, value)` records `key` in the
change buffer and overwrites the prior value. -/
def ModelData.setComponent {V : Type} (d : ModelData V) (c : ModelComponent)
    (v : Option V) : ModelData V :=
  { store := dictSet d.store c v, changeBuffer := setAdd d.changeBuffer c }

/-- Modelled from the spec: `drainChangeBuffer() -> set of keys, buffer
cleared`. -/
def ModelData.drainChangeBuffer {V : Type} (d : ModelData V) :
    List ModelComponent × ModelData V :=
  (d.changeBuffer, { d with changeBuffer := [] })

/-- An empty data store (`new ModelData()`). -/
def ModelData.empty (V : Type) : ModelData V := ⟨[], []⟩

/-- Modelled from the spec: `modelTaskMetadata.ts` is not among the
provided sources.  §3 of the spec: metadata = read set, write set, and
a priority with a neutral default. -/
structure ModelTaskMetadata where
  readSet : List ModelComponent
  writeSet : List ModelComponent
  priority : Int
deriving Repr, DecidableEq

/-- Modelled from the spec: the metadata constructor, defaulting an
omitted priority to the neutral value `0`. -/
def ModelTaskMetadata.make (readSet writeSet : List ModelComponent)
    (priority : Option Int) : ModelTaskMetadata :=
  ⟨readSet, writeSet, priority.getD 0⟩

/-- Modelled from the spec: `task.ts` is not among the provided
sources.  A `Task<ModelData, ModelTaskMetadata>` carries an effect on
the model data, its metadata, and the `index` that the `toString` of `TaskInstruction`
(hence dictionary hashing) is based on; the index is
assigned by the processor at schedule time. -/
structure ModelTask (V : Type) where
  index : Nat
  execute : ModelData V → ModelData V
  metadata : ModelTaskMetadata

/-- The `TaskInstruction` class from `taskInstruction.ts`: a scheduled task bound
to its private data snapshot, the mapping from producer instruction
(keyed by its task index) to the set of components that producer
supplies, and the inverted-dependency set (the task indices of the
instructions depending on this one). -/
structure TaskInstruction (V : Type) where
  task : ModelTask V
  data : ModelData V
  dependencies : List (Nat × List ModelComponent)
  invertedDependencies : List Nat

/-- The `TaskInstruction` constructor: dependency mapping and
inverted-dependency set start out empty. -/
def TaskInstruction.make {V : Type} (task : ModelTask V) (data : ModelData V) :
    TaskInstruction V :=
  { task := task, data := data, dependencies := [], invertedDependencies := [] }

/-- The static `TaskInstruction.getPriority`. -/
def TaskInstruction.getPriority {V : Type} (instruction : TaskInstruction V) : Int :=
  instruction.task.metadata.priority

/-- The getter `TaskInstruction.isEligibleForExecution`: the dependency mapping is
empty. -/
def TaskInstruction.isEligibleForExecution {V : Type}
    (self : TaskInstruction V) : Bool :=
  self.dependencies.isEmpty

/-- The method `TaskInstruction.addDependency(dependency, component)`: fetch the
component set recorded for `dependency` (a fresh empty set if absent),
add `component` to it, store it back, and register `this` in
the inverted-dependency set of `dependency`.  Returns the updated
`(this, dependency)` pair. -/
def TaskInstruction.addDependency {V : Type} (self dependency : TaskInstruction V)
    (component : ModelComponent) : TaskInstruction V × TaskInstruction V :=
  let componentSet := (dictGet self.dependencies dependency.task.index).getD []
  ({ self with
      dependencies := dictSet self.dependencies dependency.task.index
        (setAdd componentSet component) },
   { dependency with
      invertedDependencies := setAdd dependency.invertedDependencies self.task.index })

/-- The method `TaskInstruction.transferOutput(target)`: look up the component set
that `target` records for `this`; if there is none, throw
`"Cannot transfer components to independent instruction."`; otherwise
copy, for each recorded component, the value held by `this` into
the snapshot of `target`.  Returns the updated `(this, target)` pair;
nothing else about either instruction is written. -/
def TaskInstruction.transferOutput {V : Type} (self target : TaskInstruction V) :
    Except String (TaskInstruction V × TaskInstruction V) :=
  match dictGet target.dependencies self.task.index with
  | none => .error "Cannot transfer components to independent instruction."
  | some componentsToTransfer =>
      .ok (self,
        { target with
            data := componentsToTransfer.foldl
              (fun d component =>
                d.setComponent component (self.data.getComponent component))
              target.data })

/-! The `Model` facade (`model.ts`). -/

/-- A model observer: a function from a change buffer to a list of
tasks to process. -/
abbrev ModelObserver (V : Type) : Type :=
  List ModelComponent → List (ModelTask V)

/-- One call made during `notifyObservers`: either an observer is
invoked with the change buffer, or a task returned by an observer is
passed to `this.tasks.schedule`. -/
inductive NotifyEvent (V : Type) where
  | invoke (observer : ModelObserver V) (changeBuffer : List ModelComponent)
  | schedule (task : ModelTask V)

/-- Modelled from the spec: the processor sources are not among the
provided files; per §4.5 a task handed to `schedule` is appended to the
processor.  The pool of tasks scheduled on the processor is embedded
as a list. -/
def scheduleAppend {V : Type} (pool : List (ModelTask V)) (t : ModelTask V) :
    List (ModelTask V) :=
  pool ++ [t]

/-- The method `Model.notifyObservers(changeBuffer)`: iterate over the observer
list in order; invoke each observer with the change buffer and schedule
each task it returns, in order, before moving to the next observer.
Returns the processor pool after all scheduling, together with the
trace of calls made. -/
def notifyObservers {V : Type} :
    List (ModelObserver V) → List ModelComponent → List (ModelTask V) →
    List (ModelTask V) × List (NotifyEvent V)
  | [], _, pool => (pool, [])
  | element :: rest, changeBuffer, pool =>
      let newTasks := element changeBuffer
      let pool' := newTasks.foldl scheduleAppend pool
      let result := notifyObservers rest changeBuffer pool'
      (result.1,
       (NotifyEvent.invoke element changeBuffer :: newTasks.map NotifyEvent.schedule)
         ++ result.2)

/-- The method `Model.registerObserver(observer)`: append to the observer list. -/
def registerObserver {V : Type} (observers : List (ModelObserver V))
    (observer : ModelObserver V) : List (ModelObserver V) :=
  observers ++ [observer]

/-- The static method `Model.createTask(execute, readSet, writeSet, priority?)`: wrap the
effect and a fresh `ModelTaskMetadata` into a task.  It constructs and
returns; the processor later assigns the task index (kept at `0`
here). -/
def Model.createTask {V : Type} (execute : ModelData V → ModelData V)
    (readSet writeSet : List ModelComponent) (priority : Option Int) :
    ModelTask V :=
  { index := 0
    execute := execute
    metadata := ModelTaskMetadata.make readSet writeSet priority }

/-- The scheduler state a `Model` owns: the ready and
pending pools of the processor, the data store, and the observer list. -/
structure ModelState (V : Type) where
  readyPool : List (TaskInstruction V)
  pendingPool : List (TaskInstruction V)
  data : ModelData V
  observers : List (ModelObserver V)

/-- The call `Model.createTask` as it acts on the scheduler state: the method is
static and its body only constructs the task, so the state passes
through untouched. -/
def Model.createTaskSt {V : Type} (execute : ModelData V → ModelData V)
    (readSet writeSet : List ModelComponent) (priority : Option Int)
    (s : ModelState V) : ModelTask V × ModelState V :=
  (Model.createTask execute readSet writeSet priority, s)

/-! The out-of-order scheduling discipline (dependency creation). -/

/-- Modelled from the spec: `outOfOrderProcessor.ts` is not among the
provided sources.  §4.3 of the spec, restricted to what `schedule`
does to the dependency graph: the state is the next instruction index
(instructions are numbered in schedule order), the last-writer index
(component key to the most recently scheduled instruction writing it),
and the accumulated dependency edges
`(consumer index, producer index, component key)` created by
`addDependency` calls. -/
structure OutOfOrderState where
  nextIndex : Nat
  lastWriter : List (Nat × Nat)
  edges : List (Nat × Nat × ModelComponent)
deriving Repr

/-- Modelled from the spec: `schedule(task)` step 1 creates the new
instruction (here: its index); step 2 adds, for each key in the read
set with a live last writer, a dependency on that writer; step 3 points
the last-writer index for each key of the write set at the new
instruction. -/
def OutOfOrderState.schedule (s : OutOfOrderState) (md : ModelTaskMetadata) :
    OutOfOrderState :=
  let i := s.nextIndex
  let newEdges := md.readSet.filterMap
    (fun k => (dictGet s.lastWriter k).map (fun producer => (i, producer, k)))
  { nextIndex := i + 1
    lastWriter := md.writeSet.foldl (fun lw k => dictSet lw k i) s.lastWriter
    edges := s.edges ++ newEdges }

/-- The processor before anything is scheduled. -/
def OutOfOrderState.initial : OutOfOrderState := ⟨0, [], []⟩

/-- Run a sequence of `schedule` operations from the initial state. -/
def OutOfOrderState.run (tasks : List ModelTaskMetadata) : OutOfOrderState :=
  tasks.foldl OutOfOrderState.schedule OutOfOrderState.initial

/-- The dependency-edge relation of a processor state: `consumer`
depends on `producer` for some component key. -/
def OutOfOrderState.dependsOn (s : OutOfOrderState) (consumer producer : Nat) :
    Prop :=
  ∃ k, (consumer, producer, k) ∈ s.edges

/-! The persistence collaborator (`fileDAO.ts`). -/

/-- Modelled from the spec: `taskProcessor.ts` is not among the
provided sources.  A `ProcessorTask<D, M>` pairs an effect on `D` with
metadata of type `M`; `fileDAO.ts` passes `null` for the metadata
argument, so the field is an `Option`. -/
structure ProcessorTask (D M : Type) where
  execute : D → D
  metadata : Option M

/-- Modelled from the spec: `component.ts` is not among the provided
sources; per its use in `fileDAO.ts` a `Component` aggregates named
parts. -/
structure Component (V : Type) where
  parts : List (String × V)
deriving Repr

/-- The method `Component.setPart` as used by `LoadTask`. -/
def Component.setPart {V : Type} (c : Component V) (name : String) (v : V) :
    Component V :=
  { parts := (c.parts.filter (fun p => p.1 ≠ name)) ++ [(name, v)] }

/-- The `FileModule` class: a persistence directive naming the `ModelComponent`
being persisted, the filename, and the file contents (opaque here). -/
structure FileModule where
  type : ModelComponent
  filename : String
deriving Repr

/-- The `LoadTask` constructor (`fileDAO.ts` lines 181 to 190): the effect
reads the component named by the module from the model data (a fresh `Component`
if absent), stores the parsed `result` under the filename of the module, and
writes the component back; the metadata argument passed to `super` is
`null`. -/
def LoadTask.make {V : Type} (result : V) (module : FileModule) :
    ProcessorTask (ModelData (Component V)) ModelTaskMetadata :=
  { execute := fun data =>
      let component := (data.getComponent module.type).getD ⟨[]⟩
      data.setComponent module.type
        (some (component.setPart module.filename result))
    metadata := none }

/-- The `SaveTask` constructor (`fileDAO.ts` lines 205 to 211): the effect
reads the component named by the module and, when present, writes its part to a
file (external I/O, outside the model data, so the data store is left
as is); the metadata argument passed to `super` is `null`. -/
def SaveTask.make {V : Type} (module : FileModule) :
    ProcessorTask (ModelData (Component V)) ModelTaskMetadata :=
  { execute := fun data =>
      let _component := data.getComponent module.type
      data
    metadata := none }

/-! Dictionary and set lemmas. -/

theorem dictGet_dictSet_self {α : Type} (d : List (Nat × α)) (k : Nat) (v : α) :
    dictGet (dictSet d k v) k = some v := by
  induction d with
  | nil => simp [dictSet, dictGet, List.find?]
  | cons p rest ih =>
      by_cases h : p.1 = k
      · simp [dictSet, dictGet, List.find?, h]
      · simpa [dictSet, dictGet, List.find?, h] using ih

theorem dictGet_cons {α : Type} (p : Nat × α) (l : List (Nat × α)) (k : Nat) :
    dictGet (p :: l) k = if p.1 = k then some p.2 else dictGet l k := by
  by_cases hp : p.1 = k <;> simp [dictGet, List.find?, hp]

theorem dictGet_dictSet_ne {α : Type} (d : List (Nat × α)) (k k' : Nat) (v : α)
    (h : k' ≠ k) : dictGet (dictSet d k v) k' = dictGet d k' := by
  induction d with
  | nil =>
      show dictGet ((k, v) :: []) k' = dictGet [] k'
      rw [dictGet_cons, if_neg (Ne.symm h)]
  | cons p rest ih =>
      by_cases hp : p.1 = k
      · simp only [dictSet, if_pos hp, dictGet_cons]
        rw [if_neg (Ne.symm h), if_neg (by rw [hp]; exact Ne.symm h)]
      · simp only [dictSet, if_neg hp, dictGet_cons, ih]

theorem mem_dictSet {α : Type} (d : List (Nat × α)) (k : Nat) (v : α)
    (p : Nat × α) (h : p ∈ dictSet d k v) : p = (k, v) ∨ p ∈ d := by
  induction d with
  | nil => simpa [dictSet] using h
  | cons q rest ih =>
      by_cases hq : q.1 = k
      · simp only [dictSet, hq, if_pos rfl] at h
        rcases List.mem_cons.1 h with h | h
        · exact Or.inl h
        · exact Or.inr (List.mem_cons_of_mem _ h)
      · simp only [dictSet, hq, if_neg hq] at h
        rcases List.mem_cons.1 h with h | h
        · exact Or.inr (h ▸ List.mem_cons_self _ _)
        · rcases ih h with h | h
          · exact Or.inl h
          · exact Or.inr (List.mem_cons_of_mem _ h)

theorem mem_setAdd_self {α : Type} [DecidableEq α] (s : List α) (a : α) :
    a ∈ setAdd s a := by
  by_cases h : a ∈ s <;> simp [setAdd, h]

/-! Data-store lemmas. -/

theorem getComponent_setComponent_self {V : Type} (d : ModelData V)
    (c : ModelComponent) (v : Option V) :
    (d.setComponent c v).getComponent c = v := by
  simp [ModelData.getComponent, ModelData.setComponent, dictGet_dictSet_self]

theorem getComponent_setComponent_ne {V : Type} (d : ModelData V)
    (c c' : ModelComponent) (v : Option V) (h : c' ≠ c) :
    (d.setComponent c v).getComponent c' = d.getComponent c' := by
  simp [ModelData.getComponent, ModelData.setComponent, dictGet_dictSet_ne _ _ _ _ h]

/-- The copy loop of `transferOutput`, outside a key it never writes:
the value of the target there is unchanged. -/
theorem foldl_copy_not_mem {V : Type} (f : ModelComponent → Option V)
    (cs : List ModelComponent) (d : ModelData V) (c : ModelComponent)
    (h : c ∉ cs) :
    (cs.foldl (fun d k => d.setComponent k (f k)) d).getComponent c
      = d.getComponent c := by
  induction cs generalizing d with
  | nil => rfl
  | cons k rest ih =>
      have hk : c ≠ k := fun hc => h (hc ▸ List.mem_cons_self _ _)
      have hrest : c ∉ rest := fun hc => h (List.mem_cons_of_mem _ hc)
      rw [List.foldl_cons, ih _ hrest, getComponent_setComponent_ne _ _ _ _ hk]

/-- The copy loop of `transferOutput`, at a copied key: the target ends
up with the value the copy function supplies. -/
theorem foldl_copy_mem {V : Type} (f : ModelComponent → Option V)
    (cs : List ModelComponent) (d : ModelData V) (c : ModelComponent)
    (h : c ∈ cs) :
    (cs.foldl (fun d k => d.setComponent k (f k)) d).getComponent c = f c := by
  induction cs generalizing d with
  | nil => cases h
  | cons k rest ih =>
      by_cases hrest : c ∈ rest
      · rw [List.foldl_cons, ih _ hrest]
      · have hk : c = k := by
          rcases List.mem_cons.1 h with h | h
          · exact h
          · exact absurd h hrest
        subst hk
        rw [List.foldl_cons, foldl_copy_not_mem _ _ _ _ hrest,
          getComponent_setComponent_self]

/-! Concrete instructions used by counterexamples and witnesses.  The
producer (task index 0) writes component 0 and its post-execution
snapshot holds value 42 there; the consumer (task index 1) reads
component 0 and its snapshot starts with component 1 holding 7. -/

def producerTask : ModelTask Nat :=
  { index := 0, execute := fun d => d, metadata := ⟨[], [0], 0⟩ }

def consumerTask : ModelTask Nat :=
  { index := 1, execute := fun d => d, metadata := ⟨[0], [], 0⟩ }

def producerInstr : TaskInstruction Nat :=
  TaskInstruction.make producerTask ((ModelData.empty Nat).setComponent 0 (some 42))

def consumerInstrFresh : TaskInstruction Nat :=
  TaskInstruction.make consumerTask ((ModelData.empty Nat).setComponent 1 (some 7))

/-- The consumer/producer pair after `consumer.addDependency(producer, 0)`. -/
def depPair : TaskInstruction Nat × TaskInstruction Nat :=
  consumerInstrFresh.addDependency producerInstr 0

def consumerDep : TaskInstruction Nat := depPair.1

def producerDep : TaskInstruction Nat := depPair.2

/-- The consumer after `producer.transferOutput(consumer)`. -/
def consumerAfter : TaskInstruction Nat :=
  (((producerDep.transferOutput consumerDep).toOption).map Prod.snd).getD consumerDep

/-! Claim theorems. -/

/-- Claim C1, counterexample: with the concrete producer/consumer pair
where the consumer depends on the producer for component 0,
`transferOutput` succeeds and copies the value 42 of the producer, but
the dependency entry of the consumer for the producer is still present
afterwards (`some [0]`, not removed), so the consumer still depends on
the producer and is still ineligible — contradicting the claim that
`transferOutput` removes the dependency entry. -/
theorem transferOutput_no_removal_cex :
    producerDep.transferOutput consumerDep = Except.ok (producerDep, consumerAfter)
    ∧ dictGet consumerAfter.dependencies producerDep.task.index = some [0]
    ∧ ¬dictGet consumerAfter.dependencies producerDep.task.index = none
    ∧ consumerAfter.isEligibleForExecution = false
    ∧ consumerAfter.data.getComponent 0 = some 42 := by
  refine ⟨rfl, rfl, ?_, rfl, rfl⟩
  intro h
  simp [consumerAfter, consumerDep, depPair, consumerInstrFresh, producerDep,
    producerInstr, producerTask, consumerTask, TaskInstruction.make,
    TaskInstruction.addDependency, TaskInstruction.transferOutput, dictGet, dictSet,
    setAdd, List.find?] at h

/-- Claim C1, amended: for every producer `self` and target with a
recorded dependency entry `cs` for `self`, `transferOutput` succeeds
and copies, for every recorded component key, the value held by `self`
into the snapshot of the target; the dependency entry for `self`
remains in the dependency mapping of the target, unchanged (removal is not performed by
`transferOutput`). -/
theorem transferOutput_copies_recorded {V : Type} (self target : TaskInstruction V)
    (cs : List ModelComponent)
    (h : dictGet target.dependencies self.task.index = some cs) :
    ∃ target' : TaskInstruction V,
      self.transferOutput target = Except.ok (self, target')
      ∧ (∀ c ∈ cs, target'.data.getComponent c = self.data.getComponent c)
      ∧ target'.dependencies = target.dependencies := by
  refine ⟨{ target with
      data := cs.foldl
        (fun d component => d.setComponent component (self.data.getComponent component))
        target.data }, ?_, ?_, rfl⟩
  · simp only [TaskInstruction.transferOutput, h]
  · intro c hc
    exact foldl_copy_mem (fun component => self.data.getComponent component)
      cs target.data c hc

/-- Claim C1, amended, witnessed on the concrete producer/consumer
pair whose recorded entry is `[0]`. -/
theorem transferOutput_copies_recorded_witness :
    ∃ target' : TaskInstruction Nat,
      producerDep.transferOutput consumerDep = Except.ok (producerDep, target')
      ∧ (∀ c ∈ [0], target'.data.getComponent c = producerDep.data.getComponent c)
      ∧ target'.dependencies = consumerDep.dependencies :=
  transferOutput_copies_recorded producerDep consumerDep [0] rfl

/-- Claim C4: `transferOutput` raises the
`"Cannot transfer components to independent instruction."` error
exactly when the dependency mapping of the target has no entry for the
caller; when an entry exists the call does not raise. -/
theorem transferOutput_error_iff {V : Type} (self target : TaskInstruction V) :
    (∃ msg, self.transferOutput target = Except.error msg)
      ↔ dictGet target.dependencies self.task.index = none := by
  cases h : dictGet target.dependencies self.task.index with
  | none => simp [TaskInstruction.transferOutput, h]
  | some cs => simp [TaskInstruction.transferOutput, h]

/-- Claim C5: `addDependency(producer, key)` records `key` in the
component set held for `producer` in the dependency mapping of the
instruction — starting from the empty set when no entry existed, so keys
from the same producer accumulate in one entry — and registers the
instruction in the inverted-dependency set of the producer. -/
theorem addDependency_records {V : Type} (self dependency : TaskInstruction V)
    (component : ModelComponent) :
    dictGet (self.addDependency dependency component).1.dependencies
        dependency.task.index
      = some (setAdd ((dictGet self.dependencies dependency.task.index).getD [])
          component)
    ∧ component ∈ setAdd ((dictGet self.dependencies dependency.task.index).getD [])
        component
    ∧ (self.addDependency dependency component).2.invertedDependencies
        = setAdd dependency.invertedDependencies self.task.index
    ∧ self.task.index ∈ (self.addDependency dependency component).2.invertedDependencies := by
  unfold TaskInstruction.addDependency
  exact ⟨dictGet_dictSet_self _ _ _, mem_setAdd_self _ _, rfl, mem_setAdd_self _ _⟩

/-- Claim C6: an instruction is eligible for execution exactly when its
dependency mapping is empty. -/
theorem isEligibleForExecution_iff_no_dependencies {V : Type}
    (self : TaskInstruction V) :
    self.isEligibleForExecution = true ↔ self.dependencies = [] := by
  simp [TaskInstruction.isEligibleForExecution, List.isEmpty_iff]

/-- Claim C9: a freshly constructed `TaskInstruction` has an empty
dependency mapping and an empty inverted-dependency set, and is
eligible for execution. -/
theorem make_fresh_instruction {V : Type} (task : ModelTask V) (data : ModelData V) :
    (TaskInstruction.make task data).dependencies = []
    ∧ (TaskInstruction.make task data).invertedDependencies = []
    ∧ (TaskInstruction.make task data).isEligibleForExecution = true :=
  ⟨rfl, rfl, rfl⟩

/-- Claim C10: when the target records entry `cs` for the producer,
`transferOutput` returns the producer itself unchanged (its snapshot,
task and dependency structures are untouched) and a target whose task,
dependency mapping and inverted-dependency set are unchanged and whose
snapshot agrees with the old one on every component key outside `cs`. -/
theorem transferOutput_frame {V : Type} (self target : TaskInstruction V)
    (cs : List ModelComponent)
    (h : dictGet target.dependencies self.task.index = some cs) :
    ∃ target' : TaskInstruction V,
      self.transferOutput target = Except.ok (self, target')
      ∧ target'.task = target.task
      ∧ target'.dependencies = target.dependencies
      ∧ target'.invertedDependencies = target.invertedDependencies
      ∧ ∀ c, c ∉ cs → target'.data.getComponent c = target.data.getComponent c := by
  refine ⟨{ target with
      data := cs.foldl
        (fun d component => d.setComponent component (self.data.getComponent component))
        target.data }, ?_, rfl, rfl, rfl, ?_⟩
  · simp only [TaskInstruction.transferOutput, h]
  · intro c hc
    exact foldl_copy_not_mem (fun component => self.data.getComponent component)
      cs target.data c hc

/-- Claim C10, witnessed on the concrete producer/consumer pair: the
value of the consumer at component 1 (outside the recorded set `[0]`) is
untouched by the transfer. -/
theorem transferOutput_frame_witness :
    ∃ target' : TaskInstruction Nat,
      producerDep.transferOutput consumerDep = Except.ok (producerDep, target')
      ∧ target'.task = consumerDep.task
      ∧ target'.dependencies = consumerDep.dependencies
      ∧ target'.invertedDependencies = consumerDep.invertedDependencies
      ∧ ∀ c, c ∉ [0] → target'.data.getComponent c = consumerDep.data.getComponent c :=
  transferOutput_frame producerDep consumerDep [0] rfl

/-! Lemmas for the observer-notification protocol. -/

theorem foldl_scheduleAppend {V : Type} (ts : List (ModelTask V))
    (pool : List (ModelTask V)) :
    ts.foldl scheduleAppend pool = pool ++ ts := by
  induction ts generalizing pool with
  | nil => simp
  | cons t rest ih => simp [scheduleAppend, ih]

/-- Claim C3: notifying the observers with change buffer `cb` invokes
every registered observer exactly once with `cb`, in registration
order, and schedules (appends to the processor pool) every task an
observer returns before the next observer is invoked: the call trace is
exactly, for each observer in list order, its invocation followed by
one schedule per returned task, and the processor pool ends up extended
by all returned tasks in that order. -/
theorem notifyObservers_protocol {V : Type} (observers : List (ModelObserver V))
    (cb : List ModelComponent) (pool : List (ModelTask V)) :
    (notifyObservers observers cb pool).1
      = pool ++ (observers.map (fun o => o cb)).flatten
    ∧ (notifyObservers observers cb pool).2
      = (observers.map
          (fun o => NotifyEvent.invoke o cb :: (o cb).map NotifyEvent.schedule)).flatten := by
  induction observers generalizing pool with
  | nil => simp [notifyObservers]
  | cons o rest ih =>
      refine ⟨?_, ?_⟩
      · show (notifyObservers rest cb ((o cb).foldl scheduleAppend pool)).1 = _
        rw [(ih _).1, foldl_scheduleAppend]
        simp
      · show (NotifyEvent.invoke o cb :: (o cb).map NotifyEvent.schedule)
            ++ (notifyObservers rest cb ((o cb).foldl scheduleAppend pool)).2 = _
        rw [(ih _).2]
        simp

/-! Lemmas for the out-of-order scheduling discipline. -/

/-- A value looked up in an association list is an entry of it. -/
theorem dictGet_mem {α : Type} (d : List (Nat × α)) (k : Nat) (v : α)
    (h : dictGet d k = some v) : (k, v) ∈ d := by
  induction d with
  | nil => simp [dictGet] at h
  | cons p rest ih =>
      rw [dictGet_cons] at h
      by_cases hp : p.1 = k
      · rw [if_pos hp] at h
        have hv : p.2 = v := by injection h
        have hkv : (k, v) = p := by
          obtain ⟨p1, p2⟩ := p
          simp only at hp hv
          rw [hp, hv]
        rw [hkv]
        exact List.mem_cons_self _ _
      · rw [if_neg hp] at h
        exact List.mem_cons_of_mem _ (ih h)

/-- Every entry of the last-writer index after the write-set loop is
either the newly scheduled instruction or an old entry. -/
theorem mem_foldl_dictSet (ks : List Nat) (lw : List (Nat × Nat)) (i : Nat)
    (p : Nat × Nat) (h : p ∈ ks.foldl (fun lw k => dictSet lw k i) lw) :
    p.2 = i ∨ p ∈ lw := by
  induction ks generalizing lw with
  | nil => exact Or.inr h
  | cons k rest ih =>
      rcases ih _ h with h' | h'
      · exact Or.inl h'
      · rcases mem_dictSet _ _ _ _ h' with h'' | h''
        · exact Or.inl (by rw [h''])
        · exact Or.inr h''

/-- The invariant that makes the dependency graph a DAG: every edge
points from a later-scheduled instruction to an earlier-scheduled one,
all recorded indices are below the next fresh index. -/
def OutOfOrderState.Invariant (s : OutOfOrderState) : Prop :=
  (∀ e ∈ s.edges, e.2.1 < e.1 ∧ e.1 < s.nextIndex)
  ∧ ∀ p ∈ s.lastWriter, p.2 < s.nextIndex

theorem schedule_preserves_invariant (s : OutOfOrderState) (md : ModelTaskMetadata)
    (h : s.Invariant) : (s.schedule md).Invariant := by
  obtain ⟨hE, hW⟩ := h
  constructor
  · intro e he
    simp only [OutOfOrderState.schedule, List.mem_append] at he
    rcases he with he | he
    · obtain ⟨h1, h2⟩ := hE e he
      exact ⟨h1, Nat.lt_succ_of_lt h2⟩
    · rw [List.mem_filterMap] at he
      obtain ⟨k, _, hk⟩ := he
      cases hlw : dictGet s.lastWriter k with
      | none =>
          rw [hlw] at hk
          exact Option.noConfusion
            (show (none : Option (Nat × Nat × ModelComponent)) = some e from hk)
      | some producer =>
          rw [hlw] at hk
          have hk2 := Option.some.inj
            (show some (s.nextIndex, producer, k) = some e from hk)
          have hp := hW _ (dictGet_mem _ _ _ hlw)
          rw [← hk2]
          exact ⟨hp, Nat.lt_succ_self _⟩
  · intro p hp
    simp only [OutOfOrderState.schedule] at hp
    rcases mem_foldl_dictSet _ _ _ _ hp with h' | h'
    · rw [h']; exact Nat.lt_succ_self _
    · exact Nat.lt_succ_of_lt (hW _ h')

theorem run_invariant (tasks : List ModelTaskMetadata) :
    (OutOfOrderState.run tasks).Invariant := by
  have base : OutOfOrderState.initial.Invariant := by
    constructor
    · intro e he; cases he
    · intro p hp; cases hp
  unfold OutOfOrderState.run
  generalize OutOfOrderState.initial = s at base ⊢
  induction tasks generalizing s with
  | nil => exact base
  | cons md rest ih => exact ih _ (schedule_preserves_invariant _ _ base)

/-- Claim C7: after any sequence of `schedule` operations on the
out-of-order processor, every dependency edge points from a
later-scheduled instruction to an earlier-scheduled one, and the
dependency graph is acyclic: no instruction transitively depends on
itself. -/
theorem outOfOrder_schedule_acyclic (tasks : List ModelTaskMetadata) :
    (∀ e ∈ (OutOfOrderState.run tasks).edges, e.2.1 < e.1)
    ∧ ∀ i, ¬Relation.TransGen (OutOfOrderState.run tasks).dependsOn i i := by
  have hinv := run_invariant tasks
  refine ⟨fun e he => (hinv.1 e he).1, fun i hcyc => ?_⟩
  have key : ∀ a b, Relation.TransGen (OutOfOrderState.run tasks).dependsOn a b → b < a := by
    intro a b h
    induction h with
    | single h1 =>
        obtain ⟨k, hk⟩ := h1
        exact (hinv.1 _ hk).1
    | tail h1 h2 ih =>
        obtain ⟨k, hk⟩ := h2
        exact lt_trans (hinv.1 _ hk).1 ih
  exact absurd (key i i hcyc) (lt_irrefl i)

/-- Claim C8: `Model.createTask` is a pure factory: it returns the task
built from the given effect, read set, write set and (defaulted)
priority, and the scheduler state — ready pool, pending pool, data
store and observer list — is exactly the same after the call as
before; nothing is scheduled. -/
theorem createTask_is_pure_factory {V : Type} (execute : ModelData V → ModelData V)
    (readSet writeSet : List ModelComponent) (priority : Option Int)
    (s : ModelState V) :
    (Model.createTaskSt execute readSet writeSet priority s).2 = s
    ∧ (Model.createTaskSt execute readSet writeSet priority s).2.readyPool = s.readyPool
    ∧ (Model.createTaskSt execute readSet writeSet priority s).2.pendingPool = s.pendingPool
    ∧ (Model.createTaskSt execute readSet writeSet priority s).2.data = s.data
    ∧ (Model.createTaskSt execute readSet writeSet priority s).2.observers = s.observers
    ∧ (Model.createTaskSt execute readSet writeSet priority s).1
        = { index := 0
            execute := execute
            metadata := ModelTaskMetadata.make readSet writeSet priority } :=
  ⟨rfl, rfl, rfl, rfl, rfl, rfl⟩

/-- Claim C2: evaluated at a concrete persistence directive (component
0, filename `"file.ttl"`), both the load task and the save task built
by `fileDAO.ts` carry `none` ( `null` ) metadata — no read/write-set
declaration at all — contradicting the claim that their metadata is a
well-defined read/write-set declaration naming the persisted
component. -/
theorem fileDAO_task_metadata_none :
    (LoadTask.make (V := Nat) 42 ⟨0, "file.ttl"⟩).metadata = none
    ∧ (SaveTask.make (V := Nat) ⟨0, "file.ttl"⟩).metadata = none :=
  ⟨rfl, rfl⟩
